import Mathlib

/-!
The upload path and the encode worker of tecutecu-douga.

A shallow embedding of `src/worker/main.go` (`processJob`, the worker loop) and of
the parts of `src/main.go` that create records (`init`, `uploadHandler`).

Modelling conventions.

* The relational table `videos` is a list of rows in insertion order. The two
  `UPDATE` statements of the worker rewrite every row whose `uuid` matches.
* The file system is the list of paths of existing files.
* Every external call of `processJob` is logged, in program order, in
  `World.trace`.
* A call to the file system, the encoder, the store or Redis can fail, also where
  the program throws its error away (`db.Exec`, `os.Remove`, `rdb.Incr`,
  `rdb.Set`); the answer of each call is an input of the model. The one
  exception is `os.MkdirAll`, whose effect no later step of the model reads.
* Go strings are Lean strings; the Redis counter is a signed 64-bit integer, and
  `INCR` answers with an error rather than going past its largest value.
-/

namespace TecuTecu

/-! ## Data model (both programs declare the same two structs) -/

/-- Row of table `videos`; `sql.NullString` is `Option String`. -/
structure Video where
  UUID : String
  DisplayID : String
  Title : String
  Description : Option String
  Status : String
  ThumbnailPath : Option String
  VideoFilePath : Option String
  CreatedAt : Nat
  deriving DecidableEq, Repr

/-- Queue message. -/
structure EncodingJob where
  UUID : String
  TempPath : String
  deriving DecidableEq, Repr

/-! ## `path/filepath` (Unix) -/

/-- Split a path at every slash. -/
def splitSlash : List Char → List (List Char)
  | [] => [[]]
  | c :: cs =>
    match splitSlash cs with
    | [] => [[c]]
    | seg :: segs => if c = '/' then [] :: seg :: segs else (c :: seg) :: segs

/-- Lexical processing of the path elements as `filepath.Clean` does it; `out` is
the stack of elements kept so far, innermost first. -/
def cleanElems (rooted : Bool) : List (List Char) → List (List Char) → List (List Char)
  | [], out => out.reverse
  | e :: es, out =>
    if e = [] ∨ e = ['.'] then cleanElems rooted es out
    else if e = ['.', '.'] then
      match out with
      | [] => if rooted then cleanElems rooted es [] else cleanElems rooted es [e]
      | top :: rest =>
        if top = ['.', '.'] then cleanElems rooted es (e :: out)
        else cleanElems rooted es rest
    else cleanElems rooted es (e :: out)

/-- The function `filepath.Clean`. -/
def filepathClean (path : String) : String :=
  let cs := path.data
  if cs = [] then "."
  else
    let rooted := cs.head? = some '/'
    let body := List.intercalate ['/'] (cleanElems rooted (splitSlash cs) [])
    let res := if rooted then '/' :: body else body
    if res = [] then "." else String.mk res

/-- The function `filepath.Join`: empty elements are ignored, the rest is joined
with slashes and cleaned; no non-empty element gives the empty string. -/
def filepathJoin (elem : List String) : String :=
  match elem.filter (fun e => e ≠ "") with
  | [] => ""
  | es => filepathClean (String.intercalate "/" es)

/-! ## The worker's world -/

/-- The two statements the worker sends to the store. -/
inductive Stmt where
  | setFailed (uuid : String)
  | setActive (videoFilePath thumbnailPath uuid : String)
  deriving DecidableEq, Repr

/-- External calls of `processJob`. -/
inductive Action where
  | stat (path : String)
  | mkdirAll (path : String)
  | ffmpeg (args : List String)
  | writeFile (path content : String)
  | dbExec (stmt : Stmt)
  | remove (path : String)
  deriving DecidableEq, Repr

structure World where
  files : List String
  videos : List Video
  trace : List Action
  deriving DecidableEq, Repr

/-- What the environment answers during one call of `processJob`. -/
structure Outcomes where
  /-- When `os.Stat` fails on a path with no file behind it, the error is the one
  `os.IsNotExist` recognises (ENOENT), and not ENOTDIR, ENAMETOOLONG or EACCES. -/
  statEnoent : Bool
  /-- The thumbnail command exits with status 0. -/
  thumbOk : Bool
  /-- The multi-rendition encode exits with status 0. -/
  hlsOk : Bool
  /-- The call of `os.WriteFile` returns no error. -/
  writeOk : Bool
  /-- The call of `db.Exec` returns no error. -/
  dbOk : Bool
  /-- The deferred call of `os.Remove` returns no error. -/
  removeOk : Bool
  deriving DecidableEq, Repr

/-- Effect of a statement on the table. -/
def Stmt.apply : Stmt → List Video → List Video
  | .setFailed uuid, vs =>
    vs.map fun v => if v.UUID = uuid then { v with Status := "failed" } else v
  | .setActive videoFilePath thumbnailPath uuid, vs =>
    vs.map fun v =>
      if v.UUID = uuid then
        { v with Status := "active", VideoFilePath := some videoFilePath,
                 ThumbnailPath := some thumbnailPath }
      else v

/-- The call `db.Exec`: the statement is sent; the table changes when the store
executes it. -/
def dbExec (ok : Bool) (stmt : Stmt) (w : World) : World :=
  { w with
    videos := if ok then stmt.apply w.videos else w.videos
    trace := w.trace ++ [.dbExec stmt] }

/-- The call `os.Stat`, logged. -/
def osStat (path : String) (w : World) : World :=
  { w with trace := w.trace ++ [.stat path] }

def osMkdirAll (path : String) (w : World) : World :=
  { w with trace := w.trace ++ [.mkdirAll path] }

/-- One run of the external encoder; on success its declared outputs exist. -/
def runFfmpeg (ok : Bool) (args outputs : List String) (w : World) : World :=
  { w with
    files := if ok then w.files ++ outputs else w.files
    trace := w.trace ++ [.ffmpeg args] }

def osWriteFile (ok : Bool) (path content : String) (w : World) : World :=
  { w with
    files := if ok then w.files ++ [path] else w.files
    trace := w.trace ++ [.writeFile path content] }

/-- The call `os.Remove`: the path is gone when the call succeeds and stays when
it fails. -/
def osRemove (ok : Bool) (path : String) (w : World) : World :=
  { w with
    files := if ok then w.files.filter (fun p => p ≠ path) else w.files
    trace := w.trace ++ [.remove path] }

/-- The test `os.IsNotExist(err)` on the result of `os.Stat`: the path has no file
behind it and the error says so. -/
def statNotExist (o : Outcomes) (path : String) (w : World) : Bool :=
  decide (path ∉ w.files) && o.statEnoent

/-! ## `processJob` -/

/-- Arguments of the thumbnail command. -/
def thumbArgs (tempPath thumbnailPath : String) : List String :=
  ["-i", tempPath, "-ss", "00:00:02", "-vframes", "1", "-f", "image2", "-y", thumbnailPath]

/-- Arguments of the multi-rendition encode (`args` in `processJob`). -/
def hlsArgs (tempPath streamDir : String) : List String :=
  [ "-hwaccel", "cuda",
    "-i", tempPath,
    "-hide_banner", "-y",
    "-vf", "hwupload_cuda,scale_cuda=-2:1080", "-c:v", "h264_nvenc", "-preset", "p5", "-rc", "vbr", "-b:v", "4000k", "-maxrate", "5000k", "-bufsize", "10000k", "-c:a", "aac", "-b:a", "192k", "-hls_time", "6", "-hls_playlist_type", "vod", "-hls_segment_filename", filepathJoin [streamDir, "1080p_%04d.ts"], filepathJoin [streamDir, "1080p.m3u8"],
    "-vf", "hwupload_cuda,scale_cuda=-2:720", "-c:v", "h264_nvenc", "-preset", "p5", "-rc", "vbr", "-b:v", "2800k", "-maxrate", "3400k", "-bufsize", "5000k", "-c:a", "aac", "-b:a", "128k", "-hls_time", "6", "-hls_playlist_type", "vod", "-hls_segment_filename", filepathJoin [streamDir, "720p_%04d.ts"], filepathJoin [streamDir, "720p.m3u8"],
    "-vf", "hwupload_cuda,scale_cuda=-2:480", "-c:v", "h264_nvenc", "-preset", "p5", "-rc", "vbr", "-b:v", "1400k", "-maxrate", "1700k", "-bufsize", "2500k", "-c:a", "aac", "-b:a", "96k", "-hls_time", "6", "-hls_playlist_type", "vod", "-hls_segment_filename", filepathJoin [streamDir, "480p_%04d.ts"], filepathJoin [streamDir, "480p.m3u8"],
    "-vf", "hwupload_cuda,scale_cuda=-2:360", "-c:v", "h264_nvenc", "-preset", "p5", "-rc", "vbr", "-b:v", "800k", "-maxrate", "1000k", "-bufsize", "1500k", "-c:a", "aac", "-b:a", "96k", "-hls_time", "6", "-hls_playlist_type", "vod", "-hls_segment_filename", filepathJoin [streamDir, "360p_%04d.ts"], filepathJoin [streamDir, "360p.m3u8"],
    "-vf", "hwupload_cuda,scale_cuda=-2:144", "-c:v", "h264_nvenc", "-preset", "p5", "-rc", "vbr", "-b:v", "400k", "-maxrate", "500k", "-bufsize", "800k", "-c:a", "aac", "-b:a", "64k", "-hls_time", "6", "-hls_playlist_type", "vod", "-hls_segment_filename", filepathJoin [streamDir, "144p_%04d.ts"], filepathJoin [streamDir, "144p.m3u8"] ]

/-- The sub-manifests the encode is told to write, in the order of `hlsArgs`. -/
def subManifests (streamDir : String) : List String :=
  [ filepathJoin [streamDir, "1080p.m3u8"], filepathJoin [streamDir, "720p.m3u8"],
    filepathJoin [streamDir, "480p.m3u8"], filepathJoin [streamDir, "360p.m3u8"],
    filepathJoin [streamDir, "144p.m3u8"] ]

/-- The raw string literal `masterPlaylistContent`. Its first line starts right
after the opening quote; each later line of the literal starts with the tab that
indents it in the source, and the literal ends with a newline and a tab. -/
def masterPlaylistContent : String :=
  "#EXTM3U\n\t#EXT-X-VERSION:3\n\t#EXT-X-STREAM-INF:BANDWIDTH=6000000,RESOLUTION=1920x1080,NAME=\"1080p\"\n\t1080p.m3u8\n\t#EXT-X-STREAM-INF:BANDWIDTH=3400000,RESOLUTION=1280x720,NAME=\"720p\"\n\t720p.m3u8\n\t#EXT-X-STREAM-INF:BANDWIDTH=1700000,RESOLUTION=854x480,NAME=\"480p\"\n\t480p.m3u8\n\t#EXT-X-STREAM-INF:BANDWIDTH=1000000,RESOLUTION=640x360,NAME=\"360p\"\n\t360p.m3u8\n\t#EXT-X-STREAM-INF:BANDWIDTH=500000,RESOLUTION=256x144,NAME=\"144p\"\n\t144p.m3u8\n\t"

/-- Body of `processJob`, without the deferred removal. -/
def processJobBody (o : Outcomes) (job : EncodingJob) (w : World) : World :=
  let w := osStat job.TempPath w
  if statNotExist o job.TempPath w then
    dbExec o.dbOk (.setFailed job.UUID) w
  else
    let streamDir := filepathJoin ["static", "streams", job.UUID]
    let w := osMkdirAll streamDir w
    let thumbnailName := job.UUID ++ ".jpg"
    let thumbnailPath := filepathJoin ["static", "thumbnails", thumbnailName]
    let w := runFfmpeg o.thumbOk (thumbArgs job.TempPath thumbnailPath) [thumbnailPath] w
    let args := hlsArgs job.TempPath streamDir
    let w := runFfmpeg o.hlsOk args (subManifests streamDir) w
    if !o.hlsOk then
      dbExec o.dbOk (.setFailed job.UUID) w
    else
      let masterPlaylistPath := filepathJoin [streamDir, "master.m3u8"]
      let w := osWriteFile o.writeOk masterPlaylistPath masterPlaylistContent w
      if !o.writeOk then
        dbExec o.dbOk (.setFailed job.UUID) w
      else
        let masterPlaylistURL := "/static/streams/" ++ job.UUID ++ "/master.m3u8"
        let thumbnailURL := "/static/thumbnails/" ++ thumbnailName
        dbExec o.dbOk (.setActive masterPlaylistURL thumbnailURL job.UUID) w

/-- The function `processJob`: the body, then the deferred `os.Remove`. -/
def processJob (o : Outcomes) (job : EncodingJob) (w : World) : World :=
  osRemove o.removeOk job.TempPath (processJobBody o job w)

/-- The external calls one run of `processJob` makes, in order. -/
def performed (o : Outcomes) (job : EncodingJob) (w : World) : List Action :=
  (processJob o job w).trace.drop w.trace.length

def Action.isFfmpeg : Action → Bool
  | .ffmpeg _ => true
  | _ => false

def Action.isWriteFile : Action → Bool
  | .writeFile _ _ => true
  | _ => false

def Action.isRemove : Action → Bool
  | .remove _ => true
  | _ => false

/-- The row `v` after the update to status failed. -/
def Video.failed (v : Video) : Video := { v with Status := "failed" }

/-- The row `v` after the update to status active with the two paths. -/
def Video.activated (videoFilePath thumbnailPath : String) (v : Video) : Video :=
  { v with Status := "active", VideoFilePath := some videoFilePath,
           ThumbnailPath := some thumbnailPath }

/-- The calls made before the encode result is known. -/
def prelude (job : EncodingJob) : List Action :=
  [ .stat job.TempPath,
    .mkdirAll (filepathJoin ["static", "streams", job.UUID]),
    .ffmpeg (thumbArgs job.TempPath (filepathJoin ["static", "thumbnails", job.UUID ++ ".jpg"])),
    .ffmpeg (hlsArgs job.TempPath (filepathJoin ["static", "streams", job.UUID])) ]

/-! ## Sample inputs -/

/-- A record as the upload path creates it. -/
def sampleVideo : Video :=
  { UUID := "a", DisplayID := "tm1", Title := "Intro", Description := none,
    Status := "processing", ThumbnailPath := none, VideoFilePath := none, CreatedAt := 0 }

def sampleJob : EncodingJob := { UUID := "a", TempPath := "static/temp/a.mp4" }

/-- The staged file of `sampleJob` is on disk. -/
def stagedWorld : World :=
  { files := ["static/temp/a.mp4"], videos := [sampleVideo], trace := [] }

/-- The staged file of `sampleJob` is gone. -/
def missingWorld : World := { files := [], videos := [sampleVideo], trace := [] }

/-- Every call answers without error; a failing stat reports ENOENT. -/
def allOk : Outcomes :=
  { statEnoent := true, thumbOk := true, hlsOk := true, writeOk := true, dbOk := true,
    removeOk := true }

/-! ## Reading the master manifest and the rendition ladder -/

/-- Split a text at every newline. -/
def splitLines : List Char → List (List Char)
  | [] => [[]]
  | c :: cs =>
    match splitLines cs with
    | [] => [[c]]
    | l :: ls => if c = '\n' then [] :: l :: ls else (c :: l) :: ls

/-- The lines of the master manifest that `processJob` writes. -/
def manifestLines : List String :=
  (splitLines masterPlaylistContent.data).map String.mk

/-- File names of the sub-manifests, as the last path element given to the
encoder for each rendition. -/
def subManifestNames : List String :=
  ["1080p.m3u8", "720p.m3u8", "480p.m3u8", "360p.m3u8", "144p.m3u8"]

/-- A line as C10 wants it: a tag line, or exactly the name of a sub-manifest. -/
def lineOk (l : String) : Bool :=
  l.data.head? = some '#' || subManifestNames.contains l

/-- When `pre` starts `s`, the rest of `s`. -/
def dropPrefix? : List Char → List Char → Option (List Char)
  | [], s => some s
  | _ :: _, [] => none
  | p :: ps, c :: cs => if p = c then dropPrefix? ps cs else none

/-- The text after the first occurrence of `key` in `s`. -/
def findAfter (key : List Char) : List Char → Option (List Char)
  | [] => dropPrefix? key []
  | c :: cs =>
    match dropPrefix? key (c :: cs) with
    | some rest => some rest
    | none => findAfter key cs

/-- Value of a string of decimal digits. -/
def digitsValue (ds : List Char) : Nat :=
  ds.foldl (fun acc c => 10 * acc + (c.toNat - '0'.toNat)) 0

/-- The decimal number right after `key` in `line`. -/
def attrNat (key : String) (line : List Char) : Option Nat :=
  match findAfter key.data line with
  | none => none
  | some rest =>
    let ds := rest.takeWhile Char.isDigit
    if ds = [] then none else some (digitsValue ds)

/-- One variant stream as the master manifest declares it. -/
structure StreamInf where
  bandwidth : Nat
  width : Nat
  height : Nat
  name : String
  deriving DecidableEq, Repr

/-- The attributes of one declaration: bandwidth, resolution and name. -/
def parseAttrs (attrs : List Char) : Option StreamInf :=
  match attrNat "BANDWIDTH=" attrs, attrNat "RESOLUTION=" attrs,
      findAfter "RESOLUTION=".data attrs, findAfter "NAME=\"".data attrs with
  | some b, some wd, some res, some nm =>
    match attrNat "x" (res.dropWhile Char.isDigit) with
    | some ht =>
      some { bandwidth := b, width := wd, height := ht,
             name := String.mk (nm.takeWhile (fun c => c ≠ '"')) }
    | none => none
  | _, _, _, _ => none

/-- The variant streams a reader of the playlist format finds in the lines of a
master manifest, each with its URI. A line is a tag or a comment only when its
first character is `#`; the tag `#EXT-X-STREAM-INF:` at the start of a line
declares a stream; the next line that is not empty and does not start with `#`
is a URI line, the URI of the pending declaration if there is one. -/
def readVariants : Option StreamInf → List (List Char) → List (StreamInf × String)
  | _, [] => []
  | pending, l :: ls =>
    if l = [] then readVariants pending ls
    else if l.head? = some '#' then
      match dropPrefix? "#EXT-X-STREAM-INF:".data l with
      | some attrs => readVariants (parseAttrs attrs) ls
      | none => readVariants pending ls
    else
      match pending with
      | some d => (d, String.mk l) :: readVariants none ls
      | none => readVariants none ls

/-- The variant streams of a playlist text. -/
def variantStreams (content : String) : List (StreamInf × String) :=
  readVariants none (splitLines content.data)

/-- A line without the tab that starts it, if one does. -/
def dropTab : List Char → List Char
  | '\t' :: rest => rest
  | l => l

/-- The variant streams of a playlist text once the tab at the start of each of
its lines is taken away. -/
def variantStreamsUntabbed (content : String) : List (StreamInf × String) :=
  readVariants none ((splitLines content.data).map dropTab)

/-- One step of the rendition ladder given to the encoder. -/
structure Rendition where
  name : String
  height : Nat
  videoRate : String
  maxRate : String
  bufSize : String
  audioRate : String
  deriving DecidableEq, Repr

/-- The ladder of `args` in `processJob`, block by block. -/
def ladder : List Rendition :=
  [ ⟨"1080p", 1080, "4000k", "5000k", "10000k", "192k"⟩,
    ⟨"720p", 720, "2800k", "3400k", "5000k", "128k"⟩,
    ⟨"480p", 480, "1400k", "1700k", "2500k", "96k"⟩,
    ⟨"360p", 360, "800k", "1000k", "1500k", "96k"⟩,
    ⟨"144p", 144, "400k", "500k", "800k", "64k"⟩ ]

/-- Decimal digits of a number, most significant first (`Nat.toDigits 10`). -/
def decimal (n : Nat) : String := String.mk (Nat.toDigits 10 n)

/-- The block of encoder arguments for one rendition. -/
def renditionArgs (streamDir : String) (r : Rendition) : List String :=
  [ "-vf", "hwupload_cuda,scale_cuda=-2:" ++ decimal r.height, "-c:v", "h264_nvenc",
    "-preset", "p5", "-rc", "vbr", "-b:v", r.videoRate, "-maxrate", r.maxRate,
    "-bufsize", r.bufSize, "-c:a", "aac", "-b:a", r.audioRate, "-hls_time", "6",
    "-hls_playlist_type", "vod", "-hls_segment_filename",
    filepathJoin [streamDir, r.name ++ "_%04d.ts"], filepathJoin [streamDir, r.name ++ ".m3u8"] ]

/-- The contents `processJob` hands to `os.WriteFile` during one run. -/
def writtenManifests (o : Outcomes) (job : EncodingJob) (w : World) : List String :=
  (performed o job w).filterMap fun a =>
    match a with
    | .writeFile _ content => some content
    | _ => none

/-! ## The upload path and the counter (`src/main.go`) -/

/-- The function `strconv.FormatInt(n, 10)`. -/
def FormatInt (n : Int) : String :=
  if n < 0 then String.mk ('-' :: Nat.toDigits 10 n.natAbs)
  else String.mk (Nat.toDigits 10 n.toNat)

/-- SQL `SUBSTRING(s FROM 3)`: the text from the third character on. -/
def substringFrom3 (s : String) : String := String.mk (s.data.drop 2)

/-- SQL `CAST(s AS INTEGER)`: an optional sign and decimal digits, within the
32-bit range; `none` is the error the store raises otherwise. (Blanks around
the number, which the store would accept, are not.) -/
def castInteger (s : String) : Option Int :=
  let signed : Bool × List Char :=
    match s.data with
    | '-' :: rest => (true, rest)
    | '+' :: rest => (false, rest)
    | rest => (false, rest)
  if signed.2 = [] ∨ signed.2.all Char.isDigit = false then none
  else
    let v : Int := if signed.1 then -(digitsValue signed.2 : Int) else (digitsValue signed.2 : Int)
    if -2147483648 ≤ v ∧ v ≤ 2147483647 then some v else none

/-- The suffix numbers of all rows; `none` when a cast fails. -/
def castSuffixes : List String → Option (List Int)
  | [] => some []
  | id :: ids =>
    match castInteger (substringFrom3 id), castSuffixes ids with
    | some n, some ns => some (n :: ns)
    | _, _ => none

/-- SQL `MAX` over the rows: `none` is NULL. -/
def sqlMax : List Int → Option Int
  | [] => none
  | n :: ns =>
    match sqlMax ns with
    | none => some n
    | some m => some (max n m)

/-- The query of `init`,
`SELECT COALESCE(MAX(CAST(SUBSTRING(display_id FROM 3) AS INTEGER)), 0) FROM videos`;
`none` is a query error. -/
def selectMaxID (vs : List Video) : Option Int :=
  match castSuffixes (vs.map Video.DisplayID) with
  | none => none
  | some ns => some ((sqlMax ns).getD 0)

/-- The statement `INSERT INTO videos` under the constraints of the schema:
`uuid` is the primary key and `display_id` is unique; `none` is an error. -/
def dbInsert (ok : Bool) (v : Video) (vs : List Video) : Option (List Video) :=
  if ok = true ∧ v.UUID ∉ vs.map Video.UUID ∧ v.DisplayID ∉ vs.map Video.DisplayID then
    some (vs ++ [v])
  else none

/-- The whole system: the worker's world (files and table), the Redis list
`encoding_jobs` (left end first), the Redis key `video_counter`, and whether the
web server is serving. -/
structure Sys where
  world : World
  queue : List EncodingJob
  counter : Option Int
  webUp : Bool
  deriving DecidableEq, Repr

/-- One request to `/upload` together with what the environment answers. -/
structure Upload where
  method : String
  /-- The call of `ParseMultipartForm` returns no error. -/
  formOk : Bool
  /-- The call of `FormFile` returns no error. -/
  fileOk : Bool
  title : String
  description : String
  /-- The value of `uuid.New().String()`. -/
  uuid : String
  /-- The call of `os.Create` returns no error. -/
  createOk : Bool
  /-- The call of `io.Copy` returns no error. -/
  copyOk : Bool
  /-- Redis answers the `INCR`. -/
  incrOk : Bool
  /-- The store is reachable for the insert. -/
  insertOk : Bool
  /-- The call of `rdb.LPush` returns no error. -/
  pushOk : Bool
  /-- The value of `CURRENT_TIMESTAMP` at the insert. -/
  now : Nat
  deriving DecidableEq, Repr

/-- The largest value of a signed 64-bit integer. -/
def maxInt64 : Int := 9223372036854775807

/-- The command `INCR`: an absent key counts as 0. The first component is the key
afterwards, the second the answer: the new value, or `none` for an error, when
Redis does not answer or the value would pass the 64-bit range; an error leaves
the key as it was. -/
def rdbIncr (ok : Bool) (counter : Option Int) : Option Int × Option Int :=
  if ok = true ∧ counter.getD 0 + 1 ≤ maxInt64 then
    (some (counter.getD 0 + 1), some (counter.getD 0 + 1))
  else (counter, none)

/-- The function `uploadHandler`. -/
def uploadHandler (r : Upload) (s : Sys) : Sys :=
  if r.method = "GET" then s
  else if r.method = "POST" then
    if !r.formOk then s
    else if !r.fileOk then s
    else if r.title = "" then s
    else
      let tempDir := filepathJoin ["static", "temp"]
      let tempVideoPath := filepathJoin [tempDir, r.uuid ++ ".mp4"]
      if !r.createOk then s
      else
        let s := { s with world := { s.world with
          files := if tempVideoPath ∈ s.world.files then s.world.files
                   else s.world.files ++ [tempVideoPath] } }
        if !r.copyOk then s
        else
          let incr := rdbIncr r.incrOk s.counter
          let newCount := incr.2.getD 0
          let s := { s with counter := incr.1 }
          let displayID := "tm" ++ FormatInt newCount
          let video : Video :=
            { UUID := r.uuid, DisplayID := displayID, Title := r.title,
              Description := if r.description ≠ "" then some r.description else none,
              Status := "processing", ThumbnailPath := none, VideoFilePath := none,
              CreatedAt := r.now }
          match dbInsert r.insertOk video s.world.videos with
          | none => s
          | some vs =>
            let s := { s with world := { s.world with videos := vs } }
            let job : EncodingJob := { UUID := r.uuid, TempPath := tempVideoPath }
            if !r.pushOk then s
            else { s with queue := job :: s.queue }
  else s

/-- The counter part of `init` in the web server: when the key is absent it is
set to the largest suffix in the table. An error of `rdb.Exists` or of `db.Get`
is fatal; the result of `rdb.Set` is thrown away, so when the `SET` fails the
key stays absent and the server starts all the same. -/
def webInit (existsOk getOk setOk : Bool) (s : Sys) : Sys :=
  if !existsOk then { s with webUp := false }
  else
    match s.counter with
    | some _ => { s with webUp := true }
    | none =>
      match (if getOk then selectMaxID s.world.videos else none) with
      | none => { s with webUp := false }
      | some maxID => { s with counter := if setOk then some maxID else none, webUp := true }

/-- One turn of the worker loop: `BRPop` takes the job at the right end (and
waits when there is none), then `processJob` runs. The JSON encoding of the job
is not modelled: what `json.Marshal` wrote, `json.Unmarshal` reads back. -/
def workerStep (o : Outcomes) (s : Sys) : Sys :=
  match s.queue.getLast? with
  | none => s
  | some job => { s with queue := s.queue.dropLast, world := processJob o job s.world }

/-- What can happen next in the system. -/
inductive Step where
  /-- A request to `/upload`; it is served only while the web server is up. -/
  | upload (r : Upload)
  /-- The worker handles the next job. -/
  | work (o : Outcomes)
  /-- The web server starts (again); with `lost` the counter key was lost before. -/
  | start (lost existsOk getOk setOk : Bool)
  deriving DecidableEq, Repr

def step (st : Step) (s : Sys) : Sys :=
  match st with
  | .upload r => if s.webUp then uploadHandler r s else s
  | .work o => workerStep o s
  | .start lost existsOk getOk setOk =>
    webInit existsOk getOk setOk (if lost then { s with counter := none } else s)

def runSteps (steps : List Step) (s : Sys) : Sys :=
  steps.foldl (fun acc st => step st acc) s

/-- Fresh deployment: empty store, empty queue, no counter, nothing started. -/
def Sys.init : Sys :=
  { world := { files := [], videos := [], trace := [] }, queue := [], counter := none,
    webUp := false }

/-- The record with internal id `uuid`, if the table has one. -/
def lookup (uuid : String) (vs : List Video) : Option Video :=
  vs.find? (fun v => v.UUID = uuid)

/-- Status active or failed. -/
def Video.terminal (v : Video) : Prop := v.Status = "active" ∨ v.Status = "failed"

instance (v : Video) : Decidable v.terminal := by
  unfold Video.terminal
  infer_instance

/-- Number of steps of the run at which the existing record `uuid` changes. -/
def modifications (uuid : String) : List Step → Sys → Nat
  | [], _ => 0
  | st :: rest, s =>
    (if (lookup uuid s.world.videos).isSome ∧
        lookup uuid (step st s).world.videos ≠ lookup uuid s.world.videos then 1 else 0)
      + modifications uuid rest (step st s)

/-- A well-formed upload that every call answers without error. -/
def goodUpload (uuid title : String) : Upload :=
  { method := "POST", formOk := true, fileOk := true, title := title, description := "",
    uuid := uuid, createOk := true, copyOk := true, incrOk := true, insertOk := true,
    pushOk := true, now := 0 }

/-- What holds of the table and the queue in every state the system reaches. -/
structure Inv (s : Sys) : Prop where
  /-- No two records share an internal id. -/
  nodupVideos : (s.world.videos.map Video.UUID).Nodup
  /-- No two queued jobs share an internal id. -/
  nodupQueue : (s.queue.map EncodingJob.UUID).Nodup
  /-- The record of a queued job is still in status processing. -/
  queued : ∀ j ∈ s.queue, ∀ v ∈ s.world.videos, v.UUID = j.UUID → v.Status = "processing"
  /-- A queued job has a record. -/
  queuedIn : ∀ j ∈ s.queue, j.UUID ∈ s.world.videos.map Video.UUID

/-- The display id with sequence number `n`. -/
def displayIDOf (n : Int) : String := "tm" ++ FormatInt n


/-- A run in which Redis answers the `INCR` of the second upload with an error. -/
def incrErrorRun : List Step :=
  [ .start false true true true,
    .upload (goodUpload "a" "Intro"),
    .upload { goodUpload "b" "Next" with incrOk := false } ]

/-- A run in which the insert of the first upload fails, the second upload is
stored as tm2, the counter key is lost, and at the next start of the web server
Redis answers the `SET` of the recovered value with an error. -/
def setErrorRun : List Step :=
  [ .start false true true true,
    .upload { goodUpload "a" "Intro" with insertOk := false },
    .upload (goodUpload "b" "Next"),
    .start true true true false,
    .upload (goodUpload "c" "Last") ]

/-- Seven uploads stored as tm1 to tm7, then an upload whose `INCR` Redis answers
with an error. -/
def sevenThenIncrErrorRun : List Step :=
  [ .start false true true true,
    .upload (goodUpload "u1" "t"), .upload (goodUpload "u2" "t"),
    .upload (goodUpload "u3" "t"), .upload (goodUpload "u4" "t"),
    .upload (goodUpload "u5" "t"), .upload (goodUpload "u6" "t"),
    .upload (goodUpload "u7" "t"),
    .upload { goodUpload "u8" "t" with incrOk := false } ]
/-! ## The branches of `processJob` -/

theorem statNotExist_logged (o : Outcomes) (path : String) (w : World) :
    statNotExist o path (osStat path w) = statNotExist o path w := rfl

theorem statNotExist_of_mem {o : Outcomes} {path : String} {w : World}
    (h : path ∈ w.files) : statNotExist o path w = false := by
  simp [statNotExist, h]

theorem statNotExist_of_enoent {o : Outcomes} {path : String} {w : World}
    (h : path ∉ w.files) (he : o.statEnoent = true) : statNotExist o path w = true := by
  simp [statNotExist, h, he]

theorem trace_missing (o : Outcomes) (job : EncodingJob) (w : World)
    (h : statNotExist o job.TempPath w = true) :
    (processJob o job w).trace
      = w.trace ++ [.stat job.TempPath, .dbExec (.setFailed job.UUID), .remove job.TempPath] := by
  have hl : statNotExist o job.TempPath (osStat job.TempPath w) = true := h
  simp only [osStat] at hl
  simp [processJob, processJobBody, osStat, dbExec, osRemove, hl]

theorem videos_missing (o : Outcomes) (job : EncodingJob) (w : World)
    (h : statNotExist o job.TempPath w = true) :
    (processJob o job w).videos
      = if o.dbOk then (Stmt.setFailed job.UUID).apply w.videos else w.videos := by
  have hl : statNotExist o job.TempPath (osStat job.TempPath w) = true := h
  simp only [osStat] at hl
  simp [processJob, processJobBody, osStat, dbExec, osRemove, hl]

theorem files_missing (o : Outcomes) (job : EncodingJob) (w : World)
    (h : statNotExist o job.TempPath w = true) :
    (processJob o job w).files = if o.removeOk then w.files.filter (fun p => p ≠ job.TempPath) else w.files := by
  have hl : statNotExist o job.TempPath (osStat job.TempPath w) = true := h
  simp only [osStat] at hl
  simp [processJob, processJobBody, osStat, dbExec, osRemove, hl]

theorem trace_hlsFail (o : Outcomes) (job : EncodingJob) (w : World)
    (h : statNotExist o job.TempPath w = false) (hh : o.hlsOk = false) :
    (processJob o job w).trace
      = w.trace ++ (prelude job ++ [.dbExec (.setFailed job.UUID), .remove job.TempPath]) := by
  have hl : statNotExist o job.TempPath (osStat job.TempPath w) = false := h
  simp only [osStat] at hl
  simp [processJob, processJobBody, osStat, osMkdirAll, runFfmpeg, dbExec, osRemove, prelude,
    hl, hh]

theorem videos_hlsFail (o : Outcomes) (job : EncodingJob) (w : World)
    (h : statNotExist o job.TempPath w = false) (hh : o.hlsOk = false) :
    (processJob o job w).videos
      = if o.dbOk then (Stmt.setFailed job.UUID).apply w.videos else w.videos := by
  have hl : statNotExist o job.TempPath (osStat job.TempPath w) = false := h
  simp only [osStat] at hl
  simp [processJob, processJobBody, osStat, osMkdirAll, runFfmpeg, dbExec, osRemove, hl, hh]

theorem trace_writeFail (o : Outcomes) (job : EncodingJob) (w : World)
    (h : statNotExist o job.TempPath w = false) (hh : o.hlsOk = true) (hw : o.writeOk = false) :
    (processJob o job w).trace
      = w.trace ++ (prelude job ++
          [ .writeFile (filepathJoin [filepathJoin ["static", "streams", job.UUID], "master.m3u8"])
              masterPlaylistContent,
            .dbExec (.setFailed job.UUID), .remove job.TempPath ]) := by
  have hl : statNotExist o job.TempPath (osStat job.TempPath w) = false := h
  simp only [osStat] at hl
  simp [processJob, processJobBody, osStat, osMkdirAll, runFfmpeg, osWriteFile, dbExec, osRemove,
    prelude, hl, hh, hw]

theorem videos_writeFail (o : Outcomes) (job : EncodingJob) (w : World)
    (h : statNotExist o job.TempPath w = false) (hh : o.hlsOk = true) (hw : o.writeOk = false) :
    (processJob o job w).videos
      = if o.dbOk then (Stmt.setFailed job.UUID).apply w.videos else w.videos := by
  have hl : statNotExist o job.TempPath (osStat job.TempPath w) = false := h
  simp only [osStat] at hl
  simp [processJob, processJobBody, osStat, osMkdirAll, runFfmpeg, osWriteFile, dbExec, osRemove,
    hl, hh, hw]

theorem trace_success (o : Outcomes) (job : EncodingJob) (w : World)
    (h : statNotExist o job.TempPath w = false) (hh : o.hlsOk = true) (hw : o.writeOk = true) :
    (processJob o job w).trace
      = w.trace ++ (prelude job ++
          [ .writeFile (filepathJoin [filepathJoin ["static", "streams", job.UUID], "master.m3u8"])
              masterPlaylistContent,
            .dbExec (.setActive ("/static/streams/" ++ job.UUID ++ "/master.m3u8")
              ("/static/thumbnails/" ++ (job.UUID ++ ".jpg")) job.UUID),
            .remove job.TempPath ]) := by
  have hl : statNotExist o job.TempPath (osStat job.TempPath w) = false := h
  simp only [osStat] at hl
  simp [processJob, processJobBody, osStat, osMkdirAll, runFfmpeg, osWriteFile, dbExec, osRemove,
    prelude, hl, hh, hw]

theorem videos_success (o : Outcomes) (job : EncodingJob) (w : World)
    (h : statNotExist o job.TempPath w = false) (hh : o.hlsOk = true) (hw : o.writeOk = true) :
    (processJob o job w).videos
      = if o.dbOk then
          (Stmt.setActive ("/static/streams/" ++ job.UUID ++ "/master.m3u8")
            ("/static/thumbnails/" ++ (job.UUID ++ ".jpg")) job.UUID).apply w.videos
        else w.videos := by
  have hl : statNotExist o job.TempPath (osStat job.TempPath w) = false := h
  simp only [osStat] at hl
  simp [processJob, processJobBody, osStat, osMkdirAll, runFfmpeg, osWriteFile, dbExec, osRemove,
    hl, hh, hw]

theorem performed_eq (o : Outcomes) (job : EncodingJob) (w : World) (acts : List Action)
    (h : (processJob o job w).trace = w.trace ++ acts) : performed o job w = acts := by
  simp [performed, h]

theorem mem_setFailed {uuid : String} {vs : List Video} {v : Video} :
    v ∈ (Stmt.setFailed uuid).apply vs ↔
      ∃ a ∈ vs, (if a.UUID = uuid then a.failed else a) = v := by
  simp [Stmt.apply, Video.failed]

theorem mem_setActive {m t uuid : String} {vs : List Video} {v : Video} :
    v ∈ (Stmt.setActive m t uuid).apply vs ↔
      ∃ a ∈ vs, (if a.UUID = uuid then a.activated m t else a) = v := by
  simp [Stmt.apply, Video.activated]

/-! ## Claims about `processJob` -/

/-- C1, as stated, fails: the staged file of the job is missing, the stat says
so, and the store answers the update with an error (which `processJob`
ignores); the record keeps status processing. -/
theorem missing_file_store_error_keeps_processing :
    sampleJob.TempPath ∉ missingWorld.files ∧
    (processJob { allOk with dbOk := false }
        sampleJob missingWorld).videos.map Video.Status = ["processing"] := by
  decide

/-- C1, amended: when the staged file is missing at pickup and the stat reports it
as not existing, `processJob` makes exactly three calls: the stat, the update of
the job's record to status failed, and the removal; none of them runs ffmpeg or
writes a file, no file appears, and when the store executes the update every
record of the job has status failed. -/
theorem processJob_missing_file (o : Outcomes) (job : EncodingJob) (w : World)
    (h : job.TempPath ∉ w.files) (he : o.statEnoent = true) :
    performed o job w
        = [.stat job.TempPath, .dbExec (.setFailed job.UUID), .remove job.TempPath] ∧
    (∀ a ∈ performed o job w, a.isFfmpeg = false ∧ a.isWriteFile = false) ∧
    (∀ p ∈ (processJob o job w).files, p ∈ w.files) ∧
    (o.dbOk = true →
      (∀ v ∈ w.videos, v.UUID = job.UUID → v.failed ∈ (processJob o job w).videos) ∧
      (∀ v ∈ (processJob o job w).videos, v.UUID = job.UUID → v.Status = "failed")) := by
  have hs : statNotExist o job.TempPath w = true := statNotExist_of_enoent h he
  have hp := performed_eq o job w _ (trace_missing o job w hs)
  refine ⟨hp, ?_, ?_, ?_⟩
  · intro a ha
    rw [hp] at ha
    simp at ha
    rcases ha with rfl | rfl | rfl <;> simp [Action.isFfmpeg, Action.isWriteFile]
  · intro p hpf
    rw [files_missing o job w hs] at hpf
    split at hpf
    · exact (List.mem_filter.mp hpf).1
    · exact hpf
  · intro hdb
    rw [videos_missing o job w hs, hdb]
    simp only [if_true]
    constructor
    · intro v hv hu
      exact mem_setFailed.mpr ⟨v, hv, by simp [hu]⟩
    · intro v hv hu
      obtain ⟨a, _, rfl⟩ := mem_setFailed.mp hv
      by_cases ha : a.UUID = job.UUID
      · simp [ha, Video.failed]
      · simp [ha] at hu

theorem processJob_missing_file_witness :
    sampleJob.TempPath ∉ missingWorld.files ∧
    performed allOk sampleJob missingWorld
        = [.stat sampleJob.TempPath, .dbExec (.setFailed sampleJob.UUID),
            .remove sampleJob.TempPath] :=
  ⟨by decide, (processJob_missing_file allOk sampleJob missingWorld
    (by decide) rfl).1⟩

/-- The case the amended C1 leaves out: the staged path has no file behind it but
the stat fails with another error than ENOENT (as for `static/temp/a.mp4/x` when
`a.mp4` is a regular file); `processJob` goes on and runs both ffmpeg commands. -/
theorem missing_file_other_stat_error_runs_ffmpeg :
    sampleJob.TempPath ∉ missingWorld.files ∧
    performed { allOk with statEnoent := false, hlsOk := false } sampleJob missingWorld
      = prelude sampleJob ++ [.dbExec (.setFailed sampleJob.UUID), .remove sampleJob.TempPath] :=
  ⟨by decide,
   performed_eq _ _ _ _ (trace_hlsFail { allOk with statEnoent := false, hlsOk := false }
    sampleJob missingWorld (by decide) rfl)⟩

/-- C2, as stated, fails: the staged file exists, the encode fails and the store
answers the update with an error; the record keeps status processing. -/
theorem encode_failure_store_error_keeps_processing :
    sampleJob.TempPath ∈ stagedWorld.files ∧
    (processJob { allOk with hlsOk := false, dbOk := false }
        sampleJob stagedWorld).videos.map Video.Status = ["processing"] := by
  decide

/-- C2, amended: when the staged file exists and the encode returns an error,
`processJob` sends the store exactly one statement, the update of the job's
record to status failed (never the update to active), it never writes the master
manifest, every record afterwards is untouched or has status failed, and when the
store executes the update every record of the job has status failed. -/
theorem processJob_encode_failure (o : Outcomes) (job : EncodingJob) (w : World)
    (h : job.TempPath ∈ w.files) (hh : o.hlsOk = false) :
    performed o job w
        = prelude job ++ [.dbExec (.setFailed job.UUID), .remove job.TempPath] ∧
    (∀ a ∈ performed o job w, a.isWriteFile = false) ∧
    (∀ s, Action.dbExec s ∈ performed o job w → s = .setFailed job.UUID) ∧
    (∀ v ∈ (processJob o job w).videos, v ∈ w.videos ∨ v.Status = "failed") ∧
    (o.dbOk = true →
      (∀ v ∈ w.videos, v.UUID = job.UUID → v.failed ∈ (processJob o job w).videos) ∧
      (∀ v ∈ (processJob o job w).videos, v.UUID = job.UUID → v.Status = "failed")) := by
  have hp := performed_eq o job w _ (trace_hlsFail o job w (statNotExist_of_mem h) hh)
  refine ⟨hp, ?_, ?_, ?_, ?_⟩
  · intro a ha
    rw [hp] at ha
    simp [prelude] at ha
    rcases ha with rfl | rfl | rfl | rfl | rfl | rfl <;> simp [Action.isWriteFile]
  · intro s hs
    rw [hp] at hs
    simpa [prelude] using hs
  · intro v hv
    rw [videos_hlsFail o job w (statNotExist_of_mem h) hh] at hv
    by_cases hdb : o.dbOk = true
    · rw [if_pos hdb] at hv
      obtain ⟨a, ha, rfl⟩ := mem_setFailed.mp hv
      by_cases hu : a.UUID = job.UUID
      · right; simp [hu, Video.failed]
      · left; simpa [hu] using ha
    · rw [if_neg hdb] at hv
      exact Or.inl hv
  · intro hdb
    rw [videos_hlsFail o job w (statNotExist_of_mem h) hh, hdb]
    simp only [if_true]
    constructor
    · intro v hv hu
      exact mem_setFailed.mpr ⟨v, hv, by simp [hu]⟩
    · intro v hv hu
      obtain ⟨a, _, rfl⟩ := mem_setFailed.mp hv
      by_cases ha : a.UUID = job.UUID
      · simp [ha, Video.failed]
      · simp [ha] at hu

theorem processJob_encode_failure_witness :
    sampleJob.TempPath ∈ stagedWorld.files ∧
    (∀ v ∈ (processJob { allOk with hlsOk := false } sampleJob stagedWorld).videos,
      v.UUID = sampleJob.UUID → v.Status = "failed") :=
  ⟨by decide, ((processJob_encode_failure { allOk with hlsOk := false } sampleJob stagedWorld
    (by decide) rfl).2.2.2.2 rfl).2⟩

/-- C3: when the staged file exists and the encode, the write of the master
manifest and the final store update all succeed, every record of the job ends
with status active and its stream manifest path set, whatever the outcome of the
thumbnail command; the record of the job is still there. -/
theorem processJob_success_active (o : Outcomes) (job : EncodingJob) (w : World)
    (h : job.TempPath ∈ w.files) (hh : o.hlsOk = true) (hw : o.writeOk = true)
    (hdb : o.dbOk = true) :
    (∀ v ∈ (processJob o job w).videos, v.UUID = job.UUID →
      v.Status = "active" ∧
      v.VideoFilePath = some ("/static/streams/" ++ job.UUID ++ "/master.m3u8")) ∧
    (∀ v ∈ w.videos, v.UUID = job.UUID →
      ∃ v2 ∈ (processJob o job w).videos, v2.UUID = job.UUID ∧ v2.Status = "active" ∧
        v2.VideoFilePath.isSome = true) := by
  rw [videos_success o job w (statNotExist_of_mem h) hh hw, hdb]
  simp only [if_true]
  constructor
  · intro v hv hu
    obtain ⟨a, _, rfl⟩ := mem_setActive.mp hv
    by_cases ha : a.UUID = job.UUID
    · simp [ha, Video.activated]
    · simp [ha] at hu
  · intro v hv hu
    exact ⟨v.activated ("/static/streams/" ++ job.UUID ++ "/master.m3u8")
        ("/static/thumbnails/" ++ (job.UUID ++ ".jpg")),
      mem_setActive.mpr ⟨v, hv, by simp [hu]⟩, by simp [Video.activated, hu]⟩

theorem processJob_success_active_witness :
    sampleJob.TempPath ∈ stagedWorld.files ∧
    (∀ v ∈ (processJob { allOk with thumbOk := false } sampleJob stagedWorld).videos,
      v.UUID = sampleJob.UUID →
      v.Status = "active" ∧
      v.VideoFilePath = some ("/static/streams/" ++ sampleJob.UUID ++ "/master.m3u8")) :=
  ⟨by decide, (processJob_success_active { allOk with thumbOk := false } sampleJob stagedWorld
    (by decide) rfl rfl rfl).1⟩

/-- C4, as stated, fails: the thumbnail command fails, everything else succeeds;
the record ends active with its thumbnail path set. -/
theorem thumbnail_failure_still_sets_path :
    (processJob { allOk with thumbOk := false }
        sampleJob stagedWorld).videos.map (fun v => (v.Status, v.ThumbnailPath))
      = [("active", some "/static/thumbnails/a.jpg")] := by
  decide

/-- C4, amended: a record that was not active and that `processJob` leaves
active has its thumbnail path set to the thumbnail URL of the job, whether the
thumbnail command succeeded or failed. -/
theorem processJob_active_thumbnail_set (o : Outcomes) (job : EncodingJob) (w : World)
    (hnot : ∀ v ∈ w.videos, v.UUID = job.UUID → v.Status ≠ "active")
    (v : Video) (hv : v ∈ (processJob o job w).videos) (hu : v.UUID = job.UUID)
    (hact : v.Status = "active") :
    v.ThumbnailPath = some ("/static/thumbnails/" ++ job.UUID ++ ".jpg") := by
  have hfailed : ¬ ("failed" = "active") := by decide
  have key : ∀ vs : List Video,
      vs = (if o.dbOk then (Stmt.setFailed job.UUID).apply w.videos else w.videos) →
      v ∈ vs → False := by
    intro vs hvs hmem
    subst hvs
    by_cases hdb : o.dbOk = true
    · rw [if_pos hdb] at hmem
      obtain ⟨a, ha, rfl⟩ := mem_setFailed.mp hmem
      by_cases hau : a.UUID = job.UUID
      · simp [hau, Video.failed] at hact
      · simp [hau] at hu
    · rw [if_neg hdb] at hmem
      exact hnot v hmem hu hact
  cases h : statNotExist o job.TempPath w
  · by_cases hh : o.hlsOk = true
    · by_cases hw : o.writeOk = true
      · rw [videos_success o job w h hh hw] at hv
        by_cases hdb : o.dbOk = true
        · rw [if_pos hdb] at hv
          obtain ⟨a, _, rfl⟩ := mem_setActive.mp hv
          by_cases hau : a.UUID = job.UUID
          · simp [hau, Video.activated, String.append_assoc]
          · simp [hau] at hu
        · rw [if_neg hdb] at hv
          exact absurd hact (hnot v hv hu)
      · exact (key _ (videos_writeFail o job w h hh (by simpa using hw)) hv).elim
    · exact (key _ (videos_hlsFail o job w h (by simpa using hh)) hv).elim
  · exact (key _ (videos_missing o job w h) hv).elim

theorem processJob_active_thumbnail_set_witness :
    (∀ v ∈ stagedWorld.videos, v.UUID = sampleJob.UUID → v.Status ≠ "active") ∧
    (sampleVideo.activated "/static/streams/a/master.m3u8" "/static/thumbnails/a.jpg").ThumbnailPath
      = some ("/static/thumbnails/" ++ sampleJob.UUID ++ ".jpg") :=
  ⟨by decide,
   processJob_active_thumbnail_set { allOk with thumbOk := false } sampleJob stagedWorld (by decide)
    (sampleVideo.activated "/static/streams/a/master.m3u8" "/static/thumbnails/a.jpg")
    (by decide) (by decide) (by decide)⟩

theorem body_files_superset (o : Outcomes) (job : EncodingJob) (w : World) :
    ∀ p ∈ w.files, p ∈ (processJobBody o job w).files := by
  intro p hp
  unfold processJobBody
  cases h : statNotExist o job.TempPath (osStat job.TempPath w)
  · simp only [osStat] at h
    cases hh : o.hlsOk <;> cases hw : o.writeOk <;> cases ht : o.thumbOk <;>
      simp [osStat, osMkdirAll, runFfmpeg, osWriteFile, dbExec, hp, h]
  · simp only [osStat] at h
    simp [osStat, dbExec, hp, h]

theorem performed_cases (o : Outcomes) (job : EncodingJob) (w : World) :
    ∃ front : List Action, performed o job w = front ++ [.remove job.TempPath] ∧
      ∀ a ∈ front, a.isRemove = false := by
  cases h : statNotExist o job.TempPath w
  · by_cases hh : o.hlsOk = true
    · by_cases hw : o.writeOk = true
      · refine ⟨prelude job ++
          [ .writeFile (filepathJoin [filepathJoin ["static", "streams", job.UUID], "master.m3u8"])
              masterPlaylistContent,
            .dbExec (.setActive ("/static/streams/" ++ job.UUID ++ "/master.m3u8")
              ("/static/thumbnails/" ++ (job.UUID ++ ".jpg")) job.UUID) ], ?_, ?_⟩
        · rw [performed_eq o job w _ (trace_success o job w h hh hw)]
          simp
        · intro a ha
          simp [prelude] at ha
          rcases ha with rfl | rfl | rfl | rfl | rfl | rfl <;> rfl
      · refine ⟨prelude job ++
          [ .writeFile (filepathJoin [filepathJoin ["static", "streams", job.UUID], "master.m3u8"])
              masterPlaylistContent,
            .dbExec (.setFailed job.UUID) ], ?_, ?_⟩
        · rw [performed_eq o job w _ (trace_writeFail o job w h hh (by simpa using hw))]
          simp
        · intro a ha
          simp [prelude] at ha
          rcases ha with rfl | rfl | rfl | rfl | rfl | rfl <;> rfl
    · refine ⟨prelude job ++ [.dbExec (.setFailed job.UUID)], ?_, ?_⟩
      · rw [performed_eq o job w _ (trace_hlsFail o job w h (by simpa using hh))]
        simp
      · intro a ha
        simp [prelude] at ha
        rcases ha with rfl | rfl | rfl | rfl | rfl <;> rfl
  · refine ⟨[.stat job.TempPath, .dbExec (.setFailed job.UUID)], ?_, ?_⟩
    · rw [performed_eq o job w _ (trace_missing o job w h)]
      rfl
    · intro a ha
      simp at ha
      rcases ha with rfl | rfl <;> rfl

/-- On every path `processJob` calls the removal exactly once, for the staged
file of the job and as its last call, and it removes no other file; the staged
file is gone afterwards when the removal succeeds. -/
theorem removal_attempted_once_last (o : Outcomes) (job : EncodingJob) (w : World) :
    (performed o job w).filter Action.isRemove = [.remove job.TempPath] ∧
    (performed o job w).getLast? = some (.remove job.TempPath) ∧
    (o.removeOk = true → job.TempPath ∉ (processJob o job w).files) ∧
    (∀ p ∈ w.files, p ≠ job.TempPath → p ∈ (processJob o job w).files) := by
  obtain ⟨front, hf, hnone⟩ := performed_cases o job w
  refine ⟨?_, ?_, ?_, ?_⟩
  · rw [hf, List.filter_append]
    have : front.filter Action.isRemove = [] := by
      rw [List.filter_eq_nil_iff]
      intro a ha
      simp [hnone a ha]
    simp [this, Action.isRemove]
  · rw [hf]
    simp
  · intro hr
    simp [processJob, osRemove, hr]
  · intro p hp hne
    simp only [processJob, osRemove]
    split
    · exact List.mem_filter.mpr ⟨body_files_superset o job w p hp, by simpa using hne⟩
    · exact body_files_superset o job w p hp

/-- C5 fails on the code: the staged file of the job is on disk and every step
succeeds, but the deferred removal returns an error, which is thrown away. The
removal is attempted once and last, and the staged file still exists when
`processJob` returns. -/
theorem removal_error_leaves_staged_file :
    sampleJob.TempPath ∈ stagedWorld.files ∧
    (performed { allOk with removeOk := false } sampleJob stagedWorld).filter Action.isRemove
      = [.remove sampleJob.TempPath] ∧
    (performed { allOk with removeOk := false } sampleJob stagedWorld).getLast?
      = some (.remove sampleJob.TempPath) ∧
    sampleJob.TempPath ∈
      (processJob { allOk with removeOk := false } sampleJob stagedWorld).files :=
  ⟨by decide,
   (removal_attempted_once_last { allOk with removeOk := false } sampleJob stagedWorld).1,
   (removal_attempted_once_last { allOk with removeOk := false } sampleJob stagedWorld).2.1,
   by decide⟩

/-- C9, as stated, fails: after a fully successful run for video id `a` the
record holds the paths under `/static`, which are not the paths of the claim. -/
theorem success_paths_are_under_static :
    (processJob allOk
        sampleJob stagedWorld).videos.map (fun v => (v.ThumbnailPath, v.VideoFilePath))
      = [(some "/static/thumbnails/a.jpg", some "/static/streams/a/master.m3u8")] ∧
    "/static/thumbnails/a.jpg" ≠ "/thumbnails/" ++ sampleJob.UUID ++ ".jpg" ∧
    "/static/streams/a/master.m3u8" ≠ "/streams/" ++ sampleJob.UUID ++ "/master.m3u8" := by
  decide

/-- C9, amended: for a job with video id `id` that is handled successfully, the
one statement sent to the store sets status active with thumbnail path
`/static/thumbnails/id.jpg` and manifest path `/static/streams/id/master.m3u8`,
and every record of the job is updated to exactly these values. -/
theorem processJob_success_paths (o : Outcomes) (job : EncodingJob) (w : World)
    (h : job.TempPath ∈ w.files) (hh : o.hlsOk = true) (hw : o.writeOk = true)
    (hdb : o.dbOk = true) :
    (∀ s, Action.dbExec s ∈ performed o job w →
      s = .setActive ("/static/streams/" ++ job.UUID ++ "/master.m3u8")
            ("/static/thumbnails/" ++ job.UUID ++ ".jpg") job.UUID) ∧
    (∀ v ∈ w.videos, v.UUID = job.UUID →
      v.activated ("/static/streams/" ++ job.UUID ++ "/master.m3u8")
          ("/static/thumbnails/" ++ job.UUID ++ ".jpg") ∈ (processJob o job w).videos) ∧
    (∀ v ∈ (processJob o job w).videos, v.UUID = job.UUID →
      v.ThumbnailPath = some ("/static/thumbnails/" ++ job.UUID ++ ".jpg") ∧
      v.VideoFilePath = some ("/static/streams/" ++ job.UUID ++ "/master.m3u8")) := by
  have hp := performed_eq o job w _ (trace_success o job w (statNotExist_of_mem h) hh hw)
  rw [videos_success o job w (statNotExist_of_mem h) hh hw, hdb]
  simp only [if_true, String.append_assoc]
  refine ⟨?_, ?_, ?_⟩
  · intro s hs
    rw [hp] at hs
    simpa [prelude, String.append_assoc] using hs
  · intro v hv hu
    exact mem_setActive.mpr ⟨v, hv, by simp [hu]⟩
  · intro v hv hu
    obtain ⟨a, _, rfl⟩ := mem_setActive.mp hv
    by_cases ha : a.UUID = job.UUID
    · simp [ha, Video.activated]
    · simp [ha] at hu

theorem processJob_success_paths_witness :
    sampleJob.TempPath ∈ stagedWorld.files ∧
    (∀ v ∈ (processJob allOk sampleJob stagedWorld).videos,
      v.UUID = sampleJob.UUID →
      v.ThumbnailPath = some ("/static/thumbnails/" ++ sampleJob.UUID ++ ".jpg") ∧
      v.VideoFilePath = some ("/static/streams/" ++ sampleJob.UUID ++ "/master.m3u8")) :=
  ⟨by decide, (processJob_success_paths allOk sampleJob stagedWorld
    (by decide) rfl rfl rfl).2.2⟩

/-! ## Claims about the master manifest -/

theorem hlsArgs_eq_ladder (tempPath streamDir : String) :
    hlsArgs tempPath streamDir
      = ["-hwaccel", "cuda", "-i", tempPath, "-hide_banner", "-y"]
          ++ ladder.flatMap (renditionArgs streamDir) := by
  rfl

set_option maxRecDepth 100000 in
theorem variantStreams_eq : variantStreams masterPlaylistContent = [] := by
  decide

set_option maxRecDepth 100000 in
theorem variantStreamsUntabbed_eq :
    variantStreamsUntabbed masterPlaylistContent
      = [ (⟨6000000, 1920, 1080, "1080p"⟩, "1080p.m3u8"),
          (⟨3400000, 1280, 720, "720p"⟩, "720p.m3u8"),
          (⟨1700000, 854, 480, "480p"⟩, "480p.m3u8"),
          (⟨1000000, 640, 360, "360p"⟩, "360p.m3u8"),
          (⟨500000, 256, 144, "144p"⟩, "144p.m3u8") ] := by
  decide

set_option maxRecDepth 100000 in
theorem manifestLines_eq :
    manifestLines
      = [ "#EXTM3U", "\t#EXT-X-VERSION:3",
          "\t#EXT-X-STREAM-INF:BANDWIDTH=6000000,RESOLUTION=1920x1080,NAME=\"1080p\"",
          "\t1080p.m3u8",
          "\t#EXT-X-STREAM-INF:BANDWIDTH=3400000,RESOLUTION=1280x720,NAME=\"720p\"",
          "\t720p.m3u8",
          "\t#EXT-X-STREAM-INF:BANDWIDTH=1700000,RESOLUTION=854x480,NAME=\"480p\"",
          "\t480p.m3u8",
          "\t#EXT-X-STREAM-INF:BANDWIDTH=1000000,RESOLUTION=640x360,NAME=\"360p\"",
          "\t360p.m3u8",
          "\t#EXT-X-STREAM-INF:BANDWIDTH=500000,RESOLUTION=256x144,NAME=\"144p\"",
          "\t144p.m3u8", "\t" ] := by
  decide

theorem writtenManifests_success (o : Outcomes) (job : EncodingJob) (w : World)
    (h : job.TempPath ∈ w.files) (hh : o.hlsOk = true) (hw : o.writeOk = true) :
    writtenManifests o job w = [masterPlaylistContent] := by
  unfold writtenManifests
  rw [performed_eq o job w _ (trace_success o job w (statNotExist_of_mem h) hh hw)]
  simp [prelude]

/-- C8 fails on the code, by the defect of C10: the encoder is given the ladder
1080p, 720p, 480p, 360p, 144p, and a successful run writes one manifest, but a
reader of the playlist format finds no variant stream in it, since every
declaration and every URI line stands behind a tab. With the tab taken away from
each line the manifest holds the five streams of the ladder, each once and in
the order of the ladder, each with the file name of its sub-manifest, and
bandwidth, width and height fall strictly along that order. -/
theorem master_manifest_declares_no_stream :
    hlsArgs sampleJob.TempPath (filepathJoin ["static", "streams", sampleJob.UUID])
      = ["-hwaccel", "cuda", "-i", sampleJob.TempPath, "-hide_banner", "-y"]
          ++ ladder.flatMap
              (renditionArgs (filepathJoin ["static", "streams", sampleJob.UUID])) ∧
    ladder.map Rendition.name = ["1080p", "720p", "480p", "360p", "144p"] ∧
    (writtenManifests allOk sampleJob stagedWorld).map variantStreams = [[]] ∧
    (writtenManifests allOk sampleJob stagedWorld).map
        (fun c => (variantStreamsUntabbed c).map (fun d => (d.1.name, d.2)))
      = [ladder.map (fun r => (r.name, r.name ++ ".m3u8"))] ∧
    (writtenManifests allOk sampleJob stagedWorld).map
        (fun c => (variantStreamsUntabbed c).map (fun d => d.1.height))
      = [ladder.map Rendition.height] ∧
    (∀ c ∈ writtenManifests allOk sampleJob stagedWorld,
      (variantStreamsUntabbed c).Pairwise
        (fun a b => a.1.bandwidth > b.1.bandwidth ∧ a.1.width > b.1.width ∧
          a.1.height > b.1.height)) := by
  have hw : writtenManifests allOk sampleJob stagedWorld = [masterPlaylistContent] :=
    writtenManifests_success _ _ _ (by decide) rfl rfl
  rw [hw]
  refine ⟨hlsArgs_eq_ladder _ _, by decide, ?_, ?_, ?_, ?_⟩
  · rw [List.map_cons, List.map_nil, variantStreams_eq]
  · rw [List.map_cons, List.map_nil, variantStreamsUntabbed_eq]
    decide
  · rw [List.map_cons, List.map_nil, variantStreamsUntabbed_eq]
    decide
  · intro c hc
    rw [List.mem_singleton.mp hc, variantStreamsUntabbed_eq]
    decide

/-- C10 fails on the code: a successful run writes `masterPlaylistContent`, and
every line of it after the first starts with a tab, so the tag lines after the
first do not start with `#`, the sub-manifest lines are not exactly the file
names the encoder writes, and the last line is a lone tab. -/
theorem master_manifest_lines_start_with_tab :
    writtenManifests allOk sampleJob stagedWorld = [masterPlaylistContent] ∧
    manifestLines.map lineOk
      = [true, false, false, false, false, false, false, false, false, false, false, false,
          false] ∧
    manifestLines.get? 1 = some "\t#EXT-X-VERSION:3" ∧
    manifestLines.get? 3 = some "\t1080p.m3u8" ∧
    manifestLines.getLast? = some "\t" ∧
    ¬ (∀ l ∈ manifestLines, lineOk l = true) := by
  refine ⟨writtenManifests_success _ _ _ (by decide) rfl rfl, ?_, ?_, ?_, ?_, ?_⟩ <;>
    rw [manifestLines_eq] <;> decide

/-! ## The system: records and queue -/

theorem processJob_videos_cases (o : Outcomes) (job : EncodingJob) (w : World) :
    (processJob o job w).videos = w.videos ∨
    (processJob o job w).videos = (Stmt.setFailed job.UUID).apply w.videos ∨
    ∃ m t, (processJob o job w).videos = (Stmt.setActive m t job.UUID).apply w.videos := by
  by_cases hdb : o.dbOk = true
  · cases h : statNotExist o job.TempPath w
    · by_cases hh : o.hlsOk = true
      · by_cases hw : o.writeOk = true
        · right; right
          exact ⟨_, _, by rw [videos_success o job w h hh hw, if_pos hdb]⟩
        · right; left
          rw [videos_writeFail o job w h hh (by simpa using hw), if_pos hdb]
      · right; left
        rw [videos_hlsFail o job w h (by simpa using hh), if_pos hdb]
    · right; left
      rw [videos_missing o job w h, if_pos hdb]
  · left
    cases h : statNotExist o job.TempPath w
    · by_cases hh : o.hlsOk = true
      · by_cases hw : o.writeOk = true
        · rw [videos_success o job w h hh hw, if_neg hdb]
        · rw [videos_writeFail o job w h hh (by simpa using hw), if_neg hdb]
      · rw [videos_hlsFail o job w h (by simpa using hh), if_neg hdb]
    · rw [videos_missing o job w h, if_neg hdb]

theorem apply_map_UUID (stmt : Stmt) (vs : List Video) :
    (stmt.apply vs).map Video.UUID = vs.map Video.UUID := by
  cases stmt <;>
  · simp only [Stmt.apply, List.map_map]
    apply List.map_congr_left
    intro v _
    simp only [Function.comp]
    split <;> rfl

theorem apply_map_DisplayID (stmt : Stmt) (vs : List Video) :
    (stmt.apply vs).map Video.DisplayID = vs.map Video.DisplayID := by
  cases stmt <;>
  · simp only [Stmt.apply, List.map_map]
    apply List.map_congr_left
    intro v _
    simp only [Function.comp]
    split <;> rfl

theorem processJob_map_UUID (o : Outcomes) (job : EncodingJob) (w : World) :
    (processJob o job w).videos.map Video.UUID = w.videos.map Video.UUID := by
  rcases processJob_videos_cases o job w with h | h | ⟨m, t, h⟩ <;> rw [h]
  · exact apply_map_UUID _ _
  · exact apply_map_UUID _ _

theorem processJob_map_DisplayID (o : Outcomes) (job : EncodingJob) (w : World) :
    (processJob o job w).videos.map Video.DisplayID = w.videos.map Video.DisplayID := by
  rcases processJob_videos_cases o job w with h | h | ⟨m, t, h⟩ <;> rw [h]
  · exact apply_map_DisplayID _ _
  · exact apply_map_DisplayID _ _

theorem lookup_map (f : Video → Video) (hf : ∀ v, (f v).UUID = v.UUID) (u : String)
    (vs : List Video) : lookup u (vs.map f) = (lookup u vs).map f := by
  induction vs with
  | nil => rfl
  | cons a as ih =>
    simp only [lookup, List.map_cons, List.find?_cons] at ih ⊢
    by_cases hu : a.UUID = u
    · simp [hf, hu]
    · simp [hf, hu, ih]

theorem lookup_setFailed (k u : String) (vs : List Video) :
    lookup u ((Stmt.setFailed k).apply vs)
      = (lookup u vs).map (fun v => if v.UUID = k then v.failed else v) := by
  simp only [Stmt.apply]
  exact lookup_map _ (by intro v; split <;> rfl) u vs

theorem lookup_setActive (m t k u : String) (vs : List Video) :
    lookup u ((Stmt.setActive m t k).apply vs)
      = (lookup u vs).map (fun v => if v.UUID = k then v.activated m t else v) := by
  simp only [Stmt.apply]
  exact lookup_map _ (by intro v; split <;> rfl) u vs

theorem lookup_some_mem {u : String} {vs : List Video} {v : Video}
    (h : lookup u vs = some v) : v ∈ vs ∧ v.UUID = u := by
  unfold lookup at h
  exact ⟨List.mem_of_find?_eq_some h, by simpa using List.find?_some h⟩

theorem lookup_append_of_some {u : String} {vs : List Video} {v : Video} (ws : List Video)
    (h : lookup u vs = some v) : lookup u (vs ++ ws) = some v := by
  unfold lookup at h ⊢
  simp [List.find?_append, h]

theorem dbInsert_some {ok : Bool} {v : Video} {vs ws : List Video}
    (h : dbInsert ok v vs = some ws) :
    ws = vs ++ [v] ∧ v.UUID ∉ vs.map Video.UUID ∧ v.DisplayID ∉ vs.map Video.DisplayID := by
  unfold dbInsert at h
  split at h
  · rename_i hc
    exact ⟨by simpa [eq_comm] using h, hc.2.1, hc.2.2⟩
  · simp at h

/-- What one request changes: nothing in table and queue, or one new record in
status processing, and then at most one new job. -/
theorem upload_effect (r : Upload) (s : Sys) :
    (uploadHandler r s).webUp = s.webUp ∧
    (uploadHandler r s).world.trace = s.world.trace ∧
    (((uploadHandler r s).world.videos = s.world.videos ∧
      (uploadHandler r s).queue = s.queue) ∨
     (∃ video : Video, ∃ tempPath : String,
      video.UUID = r.uuid ∧ video.Status = "processing" ∧
      r.uuid ∉ s.world.videos.map Video.UUID ∧
      r.title ≠ "" ∧
      (uploadHandler r s).world.videos = s.world.videos ++ [video] ∧
      ((uploadHandler r s).queue = s.queue ∨
        (uploadHandler r s).queue = { UUID := r.uuid, TempPath := tempPath } :: s.queue))) := by
  unfold uploadHandler
  by_cases h1 : r.method = "GET"
  · simp [h1]
  by_cases h2 : r.method = "POST"
  swap
  · simp [h1, h2]
  by_cases h3 : r.formOk = true
  swap
  · simp [h1, h2, h3]
  by_cases h4 : r.fileOk = true
  swap
  · simp [h1, h2, h3, h4]
  by_cases h5 : r.title = ""
  · simp [h1, h2, h3, h4, h5]
  by_cases h6 : r.createOk = true
  swap
  · simp [h1, h2, h3, h4, h5, h6]
  by_cases h7 : r.copyOk = true
  swap
  · simp [h1, h2, h3, h4, h5, h6, h7]
  rw [if_neg h1, if_pos h2]
  simp only [h3, h4, h5, h6, h7, Bool.not_true, Bool.false_eq_true, if_false]
  split
  · simp
  · rename_i vs hins
    obtain ⟨rfl, hu, _⟩ := dbInsert_some hins
    by_cases h8 : r.pushOk = true
    · rw [if_neg (by simp [h8])]
      refine ⟨rfl, rfl, Or.inr ⟨_, _, rfl, rfl, hu, h5, rfl, Or.inr rfl⟩⟩
    · rw [if_pos (by simpa using h8)]
      refine ⟨rfl, rfl, Or.inr ⟨_, "", rfl, rfl, hu, h5, rfl, Or.inl rfl⟩⟩

theorem webInit_world (e g t : Bool) (s : Sys) : (webInit e g t s).world = s.world := by
  unfold webInit
  split
  · rfl
  · split
    · rfl
    · split <;> rfl

theorem webInit_queue (e g t : Bool) (s : Sys) : (webInit e g t s).queue = s.queue := by
  unfold webInit
  split
  · rfl
  · split
    · rfl
    · split <;> rfl

theorem start_world (l e g t : Bool) (s : Sys) :
    (step (.start l e g t) s).world = s.world := by
  simp only [step, webInit_world]
  split <;> rfl

theorem start_queue (l e g t : Bool) (s : Sys) :
    (step (.start l e g t) s).queue = s.queue := by
  simp only [step, webInit_queue]
  split <;> rfl

theorem inv_of_eq {s t : Sys} (hs : Inv s) (hv : t.world.videos = s.world.videos)
    (hq : t.queue = s.queue) : Inv t :=
  ⟨by rw [hv]; exact hs.nodupVideos, by rw [hq]; exact hs.nodupQueue,
   by rw [hv, hq]; exact hs.queued, by rw [hv, hq]; exact hs.queuedIn⟩

theorem inv_init : Inv Sys.init :=
  ⟨by simp [Sys.init], by simp [Sys.init], by simp [Sys.init], by simp [Sys.init]⟩

theorem mem_processJob_videos {o : Outcomes} {job : EncodingJob} {w : World} {v : Video}
    (hv : v ∈ (processJob o job w).videos) :
    ∃ a ∈ w.videos, a.UUID = v.UUID ∧ (a.UUID ≠ job.UUID → v = a) := by
  rcases processJob_videos_cases o job w with h | h | ⟨m, t, h⟩ <;> rw [h] at hv
  · exact ⟨v, hv, rfl, fun _ => rfl⟩
  · obtain ⟨a, ha, rfl⟩ := mem_setFailed.mp hv
    refine ⟨a, ha, ?_, ?_⟩
    · split <;> rfl
    · intro hne
      simp [hne]
  · obtain ⟨a, ha, rfl⟩ := mem_setActive.mp hv
    refine ⟨a, ha, ?_, ?_⟩
    · split <;> rfl
    · intro hne
      simp [hne]

theorem inv_upload (r : Upload) {s : Sys} (hs : Inv s) : Inv (uploadHandler r s) := by
  obtain ⟨_, _, h⟩ := upload_effect r s
  rcases h with ⟨hv, hq⟩ | ⟨video, tp, hu, hst, hfresh, _, hv, hq⟩
  · exact inv_of_eq hs hv hq
  · have hnq : r.uuid ∉ s.queue.map EncodingJob.UUID := by
      intro hmem
      obtain ⟨j, hj, hju⟩ := List.mem_map.mp hmem
      exact hfresh (hju ▸ hs.queuedIn j hj)
    have hqsub : ∀ j ∈ (uploadHandler r s).queue, j ∈ s.queue ∨ j.UUID = r.uuid := by
      intro j hj
      rcases hq with hq | hq <;> rw [hq] at hj
      · exact Or.inl hj
      · rcases List.mem_cons.mp hj with rfl | hj
        · exact Or.inr rfl
        · exact Or.inl hj
    refine ⟨?_, ?_, ?_, ?_⟩
    · rw [hv, List.map_append, List.nodup_append]
      refine ⟨hs.nodupVideos, by simp, ?_⟩
      intro a ha hb
      simp only [List.map_cons, List.map_nil, List.mem_singleton] at hb
      exact hfresh (hu ▸ hb ▸ ha)
    · rcases hq with hq | hq <;> rw [hq]
      · exact hs.nodupQueue
      · rw [List.map_cons, List.nodup_cons]
        exact ⟨hnq, hs.nodupQueue⟩
    · intro j hj v hvm hvu
      rw [hv] at hvm
      rcases List.mem_append.mp hvm with hvm | hvm
      · rcases hqsub j hj with hjq | hju
        · exact hs.queued j hjq v hvm hvu
        · exact absurd (List.mem_map.mpr ⟨v, hvm, hvu.trans hju⟩) hfresh
      · rw [List.mem_singleton.mp hvm]
        exact hst
    · intro j hj
      rw [hv, List.map_append]
      rcases hqsub j hj with hjq | hju
      · exact List.mem_append_left _ (hs.queuedIn j hjq)
      · exact List.mem_append_right _ (by simp [hu, hju])

theorem inv_work (o : Outcomes) {s : Sys} (hs : Inv s) : Inv (workerStep o s) := by
  unfold workerStep
  cases hlast : s.queue.getLast? with
  | none => exact hs
  | some job =>
    have hq : s.queue.dropLast ++ [job] = s.queue :=
      List.dropLast_append_getLast? job (by simp [hlast])
    have hnd : (s.queue.dropLast.map EncodingJob.UUID ++ [job.UUID]).Nodup := by
      have := hs.nodupQueue
      rw [← hq, List.map_append] at this
      exact this
    have hsub : ∀ j ∈ s.queue.dropLast, j ∈ s.queue := fun j hj =>
      hq ▸ List.mem_append_left _ hj
    have hne : ∀ j ∈ s.queue.dropLast, j.UUID ≠ job.UUID := by
      intro j hj heq
      have hdisj := (List.nodup_append.mp hnd).2.2
      exact hdisj (List.mem_map.mpr ⟨j, hj, rfl⟩) (by simp [heq])
    refine ⟨?_, ?_, ?_, ?_⟩
    · show ((processJob o job s.world).videos.map Video.UUID).Nodup
      rw [processJob_map_UUID]
      exact hs.nodupVideos
    · exact (List.nodup_append.mp hnd).1
    · intro j hj v hv hvu
      obtain ⟨a, ha, hau, hsame⟩ := mem_processJob_videos hv
      have : a.UUID ≠ job.UUID := by
        rw [hau, hvu]
        exact hne j hj
      rw [hsame this]
      exact hs.queued j (hsub j hj) a ha (hau.trans hvu)
    · intro j hj
      show j.UUID ∈ (processJob o job s.world).videos.map Video.UUID
      rw [processJob_map_UUID]
      exact hs.queuedIn j (hsub j hj)

theorem inv_step (st : Step) {s : Sys} (hs : Inv s) : Inv (step st s) := by
  cases st with
  | upload r =>
    simp only [TecuTecu.step]
    split
    · exact inv_upload r hs
    · exact hs
  | work o => exact inv_work o hs
  | start l e g t =>
    exact inv_of_eq hs (by rw [start_world]) (start_queue l e g t s)

theorem inv_run (steps : List Step) {s : Sys} (hs : Inv s) : Inv (runSteps steps s) := by
  induction steps generalizing s with
  | nil => exact hs
  | cons st rest ih => exact ih (inv_step st hs)

/-! ## Claims about the lifecycle of a record -/

/-- Effect of one step on an existing record: it keeps its value, or it was in
status processing and is now the same record marked failed or active. -/
theorem step_lookup (st : Step) {s : Sys} (hs : Inv s) (u : String) (v : Video)
    (hv : lookup u s.world.videos = some v) :
    lookup u (step st s).world.videos = some v ∨
    (v.Status = "processing" ∧
      (lookup u (step st s).world.videos = some v.failed ∨
        ∃ m t, lookup u (step st s).world.videos = some (v.activated m t))) := by
  cases st with
  | upload r =>
    left
    simp only [step]
    split
    · obtain ⟨_, _, h⟩ := upload_effect r s
      rcases h with ⟨hvid, _⟩ | ⟨video, tp, _, _, _, _, hvid, _⟩ <;> rw [hvid]
      · exact hv
      · exact lookup_append_of_some _ hv
    · exact hv
  | start l e g t =>
    left
    rw [start_world]
    exact hv
  | work o =>
    simp only [step, workerStep]
    cases hlast : s.queue.getLast? with
    | none => exact Or.inl hv
    | some job =>
      have hjob : job ∈ s.queue := List.mem_of_getLast?_eq_some hlast
      obtain ⟨hmem, hvu⟩ := lookup_some_mem hv
      show lookup u (processJob o job s.world).videos = some v ∨ _
      by_cases hk : v.UUID = job.UUID
      · have hproc : v.Status = "processing" := hs.queued job hjob v hmem hk
        rcases processJob_videos_cases o job s.world with h | h | ⟨m, t, h⟩
        · left
          rw [h]
          exact hv
        · right
          refine ⟨hproc, Or.inl ?_⟩
          show lookup u (processJob o job s.world).videos = some v.failed
          rw [h, lookup_setFailed, hv]
          simp [hk]
        · right
          refine ⟨hproc, Or.inr ⟨m, t, ?_⟩⟩
          show lookup u (processJob o job s.world).videos = some (v.activated m t)
          rw [h, lookup_setActive, hv]
          simp [hk]
      · left
        rcases processJob_videos_cases o job s.world with h | h | ⟨m, t, h⟩
        · rw [h]
          exact hv
        · rw [h, lookup_setFailed, hv]
          simp [hk]
        · rw [h, lookup_setActive, hv]
          simp [hk]

theorem terminal_not_processing {v : Video} (ht : v.terminal) : v.Status ≠ "processing" := by
  rcases ht with h | h <;> rw [h] <;> decide

theorem failed_terminal (v : Video) : v.failed.terminal := Or.inr rfl

theorem activated_terminal (m t : String) (v : Video) : (v.activated m t).terminal := Or.inl rfl

theorem modifications_bound (u : String) (steps : List Step) :
    ∀ s : Sys, Inv s →
      modifications u steps s ≤ 1 ∧
      (∀ v, lookup u s.world.videos = some v → v.terminal → modifications u steps s = 0) := by
  induction steps with
  | nil => intro s _; exact ⟨Nat.zero_le _, fun _ _ _ => rfl⟩
  | cons st rest ih =>
    intro s hs
    obtain ⟨hle, hzero⟩ := ih (step st s) (inv_step st hs)
    cases hlk : lookup u s.world.videos with
    | none =>
      refine ⟨?_, fun v hv _ => by simp at hv⟩
      simp only [modifications, hlk, Option.isSome_none, Bool.false_eq_true, false_and,
        if_false, Nat.zero_add]
      exact hle
    | some v =>
      rcases step_lookup st hs u v hlk with hsame | ⟨hproc, hchg⟩
      · have h0 : modifications u (st :: rest) s = modifications u rest (step st s) := by
          simp [modifications, hlk, hsame]
        rw [h0]
        refine ⟨hle, fun v2 hv2 ht => ?_⟩
        have : v2 = v := by simpa using hv2.symm
        exact hzero v (this ▸ hsame) (this ▸ ht)
      · have hrest : modifications u rest (step st s) = 0 := by
          rcases hchg with h | ⟨m, t, h⟩
          · exact hzero _ h (failed_terminal v)
          · exact hzero _ h (activated_terminal m t v)
        refine ⟨?_, fun v2 hv2 ht => ?_⟩
        · simp only [modifications, hrest, Nat.add_zero]
          split <;> simp
        · have : v2 = v := by simpa using hv2.symm
          exact absurd hproc (terminal_not_processing (this ▸ ht))

/-- C7: in every run from the fresh system (empty store, empty queue) made of
uploads, worker turns and restarts of the web server, internal ids stay unique,
and each step leaves an existing record as it is or takes it from status
processing to the same record marked failed or active; a record in status active
or failed is never changed by a step; so over a whole run a record changes at
most once after its creation. -/
theorem record_lifecycle (pre : List Step) (st : Step) (u : String) :
    ((step st (runSteps pre Sys.init)).world.videos.map Video.UUID).Nodup ∧
    (∀ v, lookup u (runSteps pre Sys.init).world.videos = some v →
      lookup u (step st (runSteps pre Sys.init)).world.videos = some v ∨
      (v.Status = "processing" ∧
        (lookup u (step st (runSteps pre Sys.init)).world.videos = some v.failed ∨
          ∃ m t, lookup u (step st (runSteps pre Sys.init)).world.videos
            = some (v.activated m t)))) ∧
    (∀ v, lookup u (runSteps pre Sys.init).world.videos = some v →
      v.Status = "active" ∨ v.Status = "failed" →
      lookup u (step st (runSteps pre Sys.init)).world.videos = some v) ∧
    (∀ steps : List Step, modifications u steps Sys.init ≤ 1) := by
  have hinv : Inv (runSteps pre Sys.init) := inv_run pre inv_init
  refine ⟨(inv_step st hinv).nodupVideos, fun v hv => step_lookup st hinv u v hv, ?_, ?_⟩
  · intro v hv ht
    rcases step_lookup st hinv u v hv with h | ⟨hproc, _⟩
    · exact h
    · exact absurd hproc (terminal_not_processing ht)
  · intro steps
    exact (modifications_bound u steps Sys.init inv_init).1

theorem record_lifecycle_witness :
    lookup "a" (runSteps [.start false true true true, .upload (goodUpload "a" "Intro")]
      Sys.init).world.videos = some sampleVideo ∧
    (sampleVideo.Status = "processing" ∧
      (lookup "a" (step (.work allOk)
          (runSteps [.start false true true true, .upload (goodUpload "a" "Intro")]
            Sys.init)).world.videos = some sampleVideo.failed ∨
       ∃ m t, lookup "a" (step (.work allOk)
          (runSteps [.start false true true true, .upload (goodUpload "a" "Intro")]
            Sys.init)).world.videos = some (sampleVideo.activated m t))) :=
  ⟨by decide,
   ((record_lifecycle [.start false true true true, .upload (goodUpload "a" "Intro")]
      (.work allOk) "a").2.1 sampleVideo (by decide)).resolve_left
    (by decide)⟩

/-! ## Claims about the display ids -/

set_option maxRecDepth 100000 in
theorem sevenThenIncrErrorRun_ids :
    (runSteps sevenThenIncrErrorRun Sys.init).world.videos.map Video.DisplayID
      = ["tm1", "tm2", "tm3", "tm4", "tm5", "tm6", "tm7", "tm0"] := by
  decide

/-- C6 fails on the code. When Redis answers an `INCR` with an error,
`uploadHandler` throws the error away and goes on with the number 0, so tm0 is
stored after tm1 (and after tm7). When Redis answers the `SET` of the recovery
with an error, `init` throws the error away, the key stays absent and the next
`INCR` gives 1, so tm1 is stored after tm2. In both runs the numbers of the
stored display ids, in creation order, are not increasing. -/
theorem redis_error_breaks_display_id_order :
    (runSteps incrErrorRun Sys.init).world.videos.map Video.DisplayID = [1, 0].map displayIDOf ∧
    (runSteps incrErrorRun Sys.init).world.videos.map Video.DisplayID = ["tm1", "tm0"] ∧
    (runSteps sevenThenIncrErrorRun Sys.init).world.videos.map Video.DisplayID
      = ["tm1", "tm2", "tm3", "tm4", "tm5", "tm6", "tm7", "tm0"] ∧
    (runSteps setErrorRun Sys.init).world.videos.map Video.DisplayID = [2, 1].map displayIDOf ∧
    (runSteps setErrorRun Sys.init).world.videos.map Video.DisplayID = ["tm2", "tm1"] ∧
    ¬ ([1, 0] : List Int).Pairwise (fun a b => a < b) ∧
    ¬ ([2, 1] : List Int).Pairwise (fun a b => a < b) :=
  ⟨by decide, by decide, sevenThenIncrErrorRun_ids, by decide, by decide, by decide, by decide⟩

end TecuTecu
